import Mathlib

/-!
Verification of the job search aggregation core (Danyalalam/job_search_api).

The Python sources are shallowly embedded: dictionaries become structures,
floats become rationals, per-job calls to the external scoring service become
an explicit `Except`-valued parameter, the random tie-break jitter becomes an
explicit function parameter, and library facilities outside the repository
(BeautifulSoup element lookup, `json.loads`) become explicit observation
parameters.  Text is handled as `List Char`; lowering and whitespace are
modelled on the ASCII fragment, which covers every cue string the code scans
for.
-/

/-! ## String and character utilities (models of the Python builtins used) -/

/-- Model of `str.lower` (ASCII fragment). -/
def strToLowerT (l : List Char) : List Char := l.map Char.toLower

/-- Model of `str.strip` with no argument: drop whitespace at both ends. -/
def stripL (l : List Char) : List Char :=
  ((l.dropWhile Char.isWhitespace).reverse.dropWhile Char.isWhitespace).reverse

/-- Model of `str.split(sep)` for a one-character separator. -/
def splitOnChar (c : Char) : List Char → List (List Char)
  | [] => [[]]
  | x :: xs =>
    if x = c then [] :: splitOnChar c xs
    else
      match splitOnChar c xs with
      | [] => [[x]]
      | t :: ts => (x :: t) :: ts

/-- Helper for `splitWs`: `acc` holds the reversed current token. -/
def splitWsAux : List Char → List Char → List (List Char)
  | [], acc => if acc = [] then [] else [acc.reverse]
  | c :: cs, acc =>
    if c.isWhitespace then
      if acc = [] then splitWsAux cs [] else acc.reverse :: splitWsAux cs []
    else splitWsAux cs (c :: acc)

/-- Model of `str.split()` with no argument: split on whitespace runs,
discarding empty tokens. -/
def splitWs (l : List Char) : List (List Char) := splitWsAux l []

/-- Model of the Python substring test `needle in haystack`. -/
def isSubOf (n : List Char) : List Char → Bool
  | [] => n.isEmpty
  | h :: t => n.isPrefixOf (h :: t) || isSubOf n t

/-! ## Data model

`Job` is the canonical record the scrapers hand to the aggregation engine
(`main.py` builds it as a dict with exactly these keys).  The two relevance
fields are absent until scoring attaches them. -/

structure Job where
  job_title : String
  company : String
  location : String
  jobNature : String
  description : String
  experience : String
  salary : String
  apply_link : String
  relevance_score : Option ℚ := none
  relevance_reasoning : Option String := none
deriving DecidableEq, Repr

/-- The search criteria dict built in `search_jobs` from the request body. -/
structure SearchCriteria where
  position : String
  experience : String
  salary : String
  jobNature : String
  location : String
  skills : String
deriving DecidableEq, Repr

/-- Model of `x.get("relevance_score", 0)`, the sort and filter key. -/
def jScore (j : Job) : ℚ := j.relevance_score.getD 0

/-! ## Stable descending sort

`sorted(..., key=lambda x: x.get("relevance_score", 0), reverse=True)` is a
stable sort: elements are in descending key order and equal keys keep their
original relative order.  A stable descending sort is unique given those two
facts plus being a permutation, so the insertion sort below (which inserts
each later element after all earlier elements of greater or equal key)
coincides with the Python call; the three characterising facts are proved
further down. -/

def insertDesc (x : Job) : List Job → List Job
  | [] => [x]
  | y :: ys => if jScore x ≤ jScore y then y :: insertDesc x ys else x :: y :: ys

def sortByScoreDesc (l : List Job) : List Job :=
  l.foldl (fun acc x => insertDesc x acc) []

/-! ## Aggregation engine: `GeminiJobFilter.filter_relevant_jobs`

The per-job external evaluation (`_evaluate_job_relevance`, which performs a
network call) is passed in as `eval`; a raised exception is `Except.error`
carrying `str(e)`.  The body mirrors `LLM_filtering.py` lines 53-87. -/

def scoreOne (eval : Job → Except String (ℚ × String)) (job : Job) : Job :=
  match eval job with
  | Except.ok (s, r) =>
      { job with relevance_score := some s, relevance_reasoning := some r }
  | Except.error e =>
      { job with relevance_score := some 0,
                 relevance_reasoning := some ("Error during evaluation: " ++ e) }

def filter_relevant_jobs (eval : Job → Except String (ℚ × String))
    (jobs : List Job) (min_score : ℚ) (max_jobs : Nat) : List Job :=
  if jobs.isEmpty then []
  else
    let scored_jobs := jobs.map (scoreOne eval)
    let sorted_jobs := sortByScoreDesc scored_jobs
    let relevant_jobs := sorted_jobs.filter (fun j => decide (min_score ≤ jScore j))
    relevant_jobs.take max_jobs

/-! ## Keyword fallback scorer: `keyword_score_jobs` (main.py lines 77-135)

`random.uniform(0, 0.05)` becomes the explicit per-position jitter function
`jit`; the Python list comprehensions building `keywords` are transliterated
clause by clause. -/

def buildKeywords (c : SearchCriteria) : List (List Char) :=
  let skillsKw :=
    if c.skills = "" then []
    else ((splitOnChar ',' c.skills.data).filter (fun k => stripL k ≠ [])).map
      (fun k => stripL (strToLowerT k))
  let positionKw :=
    if c.position = "" then []
    else ((splitWs c.position.data).filter (fun t => stripL t ≠ [])).map
      (fun t => stripL (strToLowerT t))
  let natureKw :=
    if c.jobNature ≠ "" ∧ c.jobNature ≠ "Not specified"
    then [strToLowerT c.jobNature.data] else []
  let locationKw :=
    if c.location ≠ "" ∧ c.location ≠ "Not specified"
    then [strToLowerT c.location.data] else []
  skillsKw ++ positionKw ++ natureKw ++ locationKw

/-- The lower-cased haystack `job_title+company+location+jobNature+description`. -/
def jobHaystack (j : Job) : List Char :=
  strToLowerT (j.job_title ++ " " ++ j.company ++ " " ++ j.location ++ " " ++
    j.jobNature ++ " " ++ j.description).data

/-- `sum(1 for k in keywords if k in job_text)`: entries counted with
multiplicity, exactly as the Python list is scanned. -/
def kwMatchCount (kws : List (List Char)) (j : Job) : Nat :=
  (kws.filter (fun k => isSubOf k (jobHaystack j))).length

/-- The score computed before the jitter is added (main.py lines 118-122). -/
def kwBaseScore (kws : List (List Char)) (j : Job) : ℚ :=
  if kws ≠ [] then min 1 ((kwMatchCount kws j : ℚ) / (kws.length : ℚ)) else 1/2

def kwScoreOne (kws : List (List Char)) (jit : ℚ) (j : Job) : Job :=
  let m := kwMatchCount kws j
  let score := min 1 (kwBaseScore kws j + jit)
  { j with relevance_score := some score,
           relevance_reasoning := some ("Keyword matching found " ++ toString m ++
             " out of " ++ toString kws.length ++ " keywords") }

def kwScoreList (kws : List (List Char)) (jit : Nat → ℚ) : Nat → List Job → List Job
  | _, [] => []
  | i, j :: js => kwScoreOne kws (jit i) j :: kwScoreList kws jit (i + 1) js

def keyword_score_jobs (jit : Nat → ℚ) (jobs : List Job)
    (search_criteria : SearchCriteria) (max_jobs : Nat) : List Job :=
  let keywords := buildKeywords search_criteria
  let filtered_jobs := kwScoreList keywords jit 0 jobs
  (sortByScoreDesc filtered_jobs).take max_jobs

/-! ## Source budgeting and the endpoint pipeline (`search_jobs`)

`search_jobs` consults LinkedIn, then SerpApi, then (conditionally) Indeed;
each contribution arrives as a list (empty on provider failure).  Indeed is
consulted only when fewer than 8 jobs were gathered, and is asked for 3 jobs. -/

def indeedInvoked (hasIndeed : Bool) (jobsSoFar : Nat) : Bool :=
  hasIndeed && decide (jobsSoFar < 8)

def INDEED_MAX_JOBS : Nat := 3

def gatherAllJobs (linkedin_jobs serp_jobs : List Job) (hasIndeed : Bool)
    (indeedFetch : Nat → List Job) : List Job :=
  let base := linkedin_jobs ++ serp_jobs
  if indeedInvoked hasIndeed base.length then base ++ indeedFetch INDEED_MAX_JOBS
  else base

/-- The scoring phase of `search_jobs` (main.py lines 206-250).  The handler
wraps `filter_relevant_jobs` in try/except with `keyword_score_jobs` as the
fallback, but every per-job failure is already absorbed inside
`filter_relevant_jobs`, which is therefore total: the fallback branch is
unreachable for per-call scoring failures and the model returns the filter
result directly. -/
def search_jobs_core (eval : Job → Except String (ℚ × String))
    (linkedin_jobs serp_jobs : List Job) (hasIndeed : Bool)
    (indeedFetch : Nat → List Job) : List Job :=
  let all_jobs := gatherAllJobs linkedin_jobs serp_jobs hasIndeed indeedFetch
  if all_jobs.isEmpty then []
  else
    let jobs_for_filtering := if 15 < all_jobs.length then all_jobs.take 15 else all_jobs
    filter_relevant_jobs eval jobs_for_filtering (3/10) 20

/-! ## A small regular-expression engine

`googlejob_search.py` scans the lower-cased description with `re.search`
against fixed patterns.  The constructs those patterns use (literals, `.`,
`.?`, `.{1,30}`, alternation, `\b`, `\s*`) are embedded below; `matchEnds`
returns all end positions of a match of `r` starting at position `i`, and
`reSearch` is the truth value of `re.search`. -/

inductive Re where
  | eps : Re
  | pred : (Char → Bool) → Re
  | seq : Re → Re → Re
  | alt : Re → Re → Re
  | starP : (Char → Bool) → Re
  | wb : Re

/-- Word characters for the `\b` assertion (ASCII fragment of `\w`). -/
def isWordChar (c : Char) : Bool := c.isAlphanum || c == '_'

/-- Is position `i` of `s` a word boundary? -/
def wbAt (s : List Char) (i : Nat) : Bool :=
  let left := match i with
    | 0 => false
    | k + 1 => match s[k]? with | some c => isWordChar c | none => false
  let right := match s[i]? with | some c => isWordChar c | none => false
  left != right

def matchEnds (s : List Char) : Re → Nat → List Nat
  | Re.eps, i => [i]
  | Re.pred p, i =>
    match s[i]? with
    | some c => if p c then [i + 1] else []
    | none => []
  | Re.wb, i => if wbAt s i then [i] else []
  | Re.seq a b, i => (matchEnds s a i).flatMap (fun j => matchEnds s b j)
  | Re.alt a b, i => matchEnds s a i ++ matchEnds s b i
  | Re.starP p, i =>
    (List.range (((s.drop i).takeWhile p).length + 1)).map (fun k => i + k)

/-- Model of the truth value of `re.search(pattern, s)`. -/
def reSearch (r : Re) (s : List Char) : Bool :=
  (List.range (s.length + 1)).any (fun i => !(matchEnds s r i).isEmpty)

def chRe (c : Char) : Re := Re.pred (fun d => d == c)

def litRe (t : String) : Re := t.data.foldr (fun c r => Re.seq (chRe c) r) Re.eps

def anyCh : Re := Re.pred (fun c => c ≠ '\n')

def optRe (r : Re) : Re := Re.alt Re.eps r

def repUpTo (r : Re) : Nat → Re
  | 0 => Re.eps
  | n + 1 => Re.alt Re.eps (Re.seq r (repUpTo r n))

/-- `.{1,n}` -/
def dotRange1 (n : Nat) : Re := Re.seq anyCh (repUpTo anyCh (n - 1))

/-- `\s*` -/
def wsRe : Re := Re.starP Char.isWhitespace

/-- `\b t \b` -/
def wordRe (t : String) : Re := Re.seq Re.wb (Re.seq (litRe t) Re.wb)

/-- `in.?office` -/
def inOfficeRe : Re := Re.seq (litRe "in") (Re.seq (optRe anyCh) (litRe "office"))

/-- `in.?person` -/
def inPersonRe : Re := Re.seq (litRe "in") (Re.seq (optRe anyCh) (litRe "person"))

/-- `hybrid_patterns` of `SerpApiJobScraper._extract_job_nature`. -/
def hybrid_patterns : List Re := [
  litRe "hybrid",
  Re.seq (litRe "remote") (Re.seq (dotRange1 30) (litRe "onsite")),
  Re.seq (litRe "onsite") (Re.seq (dotRange1 30) (litRe "remote")),
  Re.seq (Re.alt inOfficeRe inPersonRe) (Re.seq (dotRange1 30) (litRe "remote")),
  Re.seq (litRe "remote") (Re.seq (dotRange1 30) (Re.alt inOfficeRe inPersonRe)),
  Re.seq (litRe "work ") (Re.seq (Re.alt (litRe "from") (litRe "at"))
    (Re.seq (litRe " ") (Re.alt (litRe "home") (litRe "office"))))
]

/-- `remote_patterns` of `SerpApiJobScraper._extract_job_nature`. -/
def remote_patterns : List Re :=
  [wordRe "remote", wordRe "work from home", wordRe "wfh", wordRe "virtual",
   wordRe "telework"]

/-- `not remote|no remote|not work from home` -/
def negationRe : Re :=
  Re.alt (litRe "not remote") (Re.alt (litRe "no remote") (litRe "not work from home"))

/-- `onsite_patterns` of `SerpApiJobScraper._extract_job_nature`. -/
def onsite_patterns : List Re := [
  wordRe "onsite",
  Re.seq Re.wb (Re.seq (litRe "on") (Re.seq (optRe anyCh) (Re.seq (litRe "site") Re.wb))),
  Re.seq Re.wb (Re.seq (litRe "in") (Re.seq (optRe anyCh) (Re.seq (litRe "office") Re.wb))),
  Re.seq Re.wb (Re.seq (litRe "in") (Re.seq (optRe anyCh) (Re.seq (litRe "person") Re.wb))),
  Re.seq (litRe "work location:") (Re.seq wsRe (litRe "in person")),
  Re.seq (litRe "must be in ") (Re.seq (optRe (litRe "the ")) (litRe "office"))
]

/-! ## Work-mode inference of the two normalizers -/

/-- `SerpApiJobScraper._extract_job_nature` (googlejob_search.py lines 122-177).
`work_from_home` is the `detected_extensions.work_from_home` field of the raw
provider payload (`none` when the key is absent). -/
def serpapi_extract_job_nature (work_from_home : Option Bool)
    (description : String) : String :=
  if work_from_home = some true then "remote"
  else
    let dl := strToLowerT description.data
    if hybrid_patterns.any (fun p => reSearch p dl) then "hybrid"
    else if (remote_patterns.any (fun p => reSearch p dl)) && !(reSearch negationRe dl)
    then "remote"
    else if onsite_patterns.any (fun p => reSearch p dl) then "onsite"
    else "Not specified"

/-- `LinkedInJobScraper._extract_job_nature` (linkedin_scraper.py lines
151-167): plain substring tests on the lower-cased page text, checking
remote first and defaulting to "hybrid". -/
def linkedin_extract_job_nature (pageText : String) : String :=
  let description := strToLowerT pageText.data
  if isSubOf "remote".data description then "remote"
  else if isSubOf "onsite".data description || isSubOf "on-site".data description
  then "onsite"
  else "hybrid"

/-! ## LinkedIn normalizer: `extract_job_details`

BeautifulSoup queries on the fetched page are embedded as an observation
record: each `soup.find`-style lookup becomes an `Option String` field
(`none` when the element, regex match, or criteria entry is absent), and
`soup.get_text()` becomes `fullText`.  `extract_job_details` then mirrors
linkedin_scraper.py lines 53-82 over those observations. -/

structure LinkedInSoup where
  /-- `soup.find("h2", class "top-card-layout__title")` text -/
  titleElem : Option String
  /-- `soup.find("a", class "topcard__org-name-link")` text -/
  companyElem : Option String
  /-- `soup.find("span", class "topcard__flavor--bullet")` text -/
  locationElem : Option String
  /-- `soup.get_text()` -/
  fullText : String
  /-- `soup.find(string=...)` for the experience years regex -/
  experienceMatch : Option String
  /-- salary from the criteria section or the description patterns -/
  salaryFound : Option String
  /-- `show-more-less-html__markup` div text, already stripped -/
  descriptionElem : Option String
deriving DecidableEq, Repr

/-- The raw job dict built by `extract_job_details`: the three
`_safe_extract` fields carry `None` when the element is missing, the rest
always hold a string. -/
structure LinkedInRawJob where
  job_title : Option String
  company : Option String
  location : Option String
  experience : String
  salary : String
  jobNature : String
  apply_link : String
  description : String
deriving DecidableEq, Repr

/-- `_safe_extract`: `element.text.strip() if element else None`. -/
def safe_extract (elem : Option String) : Option String :=
  elem.map (fun t => String.mk (stripL t.data))

/-- `_extract_experience`: the found text stripped, else the sentinel. -/
def linkedin_extract_experience (experienceMatch : Option String) : String :=
  match experienceMatch with
  | some t => String.mk (stripL t.data)
  | none => "Not specified"

/-- `_extract_salary`: the found value, else the sentinel. -/
def linkedin_extract_salary (salaryFound : Option String) : String :=
  match salaryFound with
  | some s => s
  | none => "Not specified"

/-- `_extract_description`: the div text, else the sentinel. -/
def linkedin_extract_description (descriptionElem : Option String) : String :=
  match descriptionElem with
  | some d => d
  | none => "No description available"

def linkedin_job_url (job_id : String) : String :=
  "https://www.linkedin.com/jobs-guest/jobs/api/jobPosting/" ++ job_id

def extract_job_details (job_id : String) (soup : LinkedInSoup) : LinkedInRawJob :=
  { job_title := safe_extract soup.titleElem
    company := safe_extract soup.companyElem
    location := safe_extract soup.locationElem
    experience := linkedin_extract_experience soup.experienceMatch
    salary := linkedin_extract_salary soup.salaryFound
    jobNature := linkedin_extract_job_nature soup.fullText
    apply_link := linkedin_job_url job_id
    description := linkedin_extract_description soup.descriptionElem }

/-! ## Semantic response parsing: `_extract_json_from_text` and the parse
section of `_evaluate_job_relevance`

`json.loads` (a Python standard library facility, external to the repo) is
an explicit parameter producing either an association-list object or an
error; a JSON document whose top level is not an object is modelled as a
failing load, since the subsequent `result.get` raises on it and lands in
the same handled-error branch. -/

inductive JVal where
  | num : ℚ → JVal
  | str : String → JVal
  | bool : Bool → JVal
  | null : JVal
deriving DecidableEq, Repr

abbrev JObj := List (String × JVal)

def jGet (o : JObj) (k : String) : Option JVal := o.lookup k

/-- The left brace character. -/
def lbrace : Char := Char.ofNat 123

/-- The right brace character. -/
def rbrace : Char := Char.ofNat 125

/-- Index of the first occurrence of `c`, like `str.find` before the `-1`
encoding. -/
def firstIdx (c : Char) : List Char → Option Nat
  | [] => none
  | x :: xs => if x = c then some 0 else (firstIdx c xs).map (· + 1)

/-- Model of `str.find`: first index, `-1` when absent. -/
def pyFind (l : List Char) (c : Char) : Int :=
  match firstIdx c l with
  | some i => (i : Int)
  | none => -1

/-- Model of `str.rfind`: last index, `-1` when absent. -/
def pyRfind (l : List Char) (c : Char) : Int :=
  match firstIdx c l.reverse with
  | some i => ((l.length - 1 - i : Nat) : Int)
  | none => -1

/-- `_extract_json_from_text` (LLM_filtering.py lines 123-131): the slice
`text[start_idx:end_idx]`, or `none` for the raised `ValueError`. -/
def extract_json_from_text (text : List Char) : Option (List Char) :=
  let start_idx := pyFind text lbrace
  let end_idx := pyRfind text rbrace + 1
  if 0 ≤ start_idx ∧ start_idx < end_idx then
    some ((text.take end_idx.toNat).drop start_idx.toNat)
  else none

/-- Model of `float(x)` on a JSON value: numbers and booleans convert, a
string converts when it is plain decimal notation (exponent and special
forms are omitted; no theorem depends on the string case), anything else
raises. -/
def digitsToNat (l : List Char) : Nat :=
  l.foldl (fun a c => a * 10 + (c.toNat - 48)) 0

def dotChar : Char := '.'

def strToFloat (s : String) : Option ℚ :=
  let t := stripL s.data
  let (sgn, u) : ℚ × List Char :=
    match t with
    | c :: rest => if c = '-' then (-1, rest) else if c = '+' then (1, rest) else (1, t)
    | [] => (1, t)
  let ip := u.takeWhile (fun c => c ≠ dotChar)
  let rest := u.dropWhile (fun c => c ≠ dotChar)
  match rest with
  | [] => if ip ≠ [] ∧ ip.all Char.isDigit then some (sgn * digitsToNat ip) else none
  | _ :: fp =>
    if fp.all (fun c => c ≠ dotChar) ∧ (ip ≠ [] ∨ fp ≠ []) ∧
        ip.all Char.isDigit ∧ fp.all Char.isDigit then
      some (sgn * ((digitsToNat ip : ℚ) + (digitsToNat fp : ℚ) / (10 ^ fp.length)))
    else none

def pyFloatOfJVal : JVal → Option ℚ
  | JVal.num q => some q
  | JVal.bool b => some (if b then 1 else 0)
  | JVal.str s => strToFloat s
  | JVal.null => none

/-- Python keeps whatever value sits under "reasoning"; non-string values
are rendered for the `String`-typed model field. -/
def jvalAsReasoningStr : JVal → String
  | JVal.str s => s
  | JVal.num q => toString q
  | JVal.bool b => if b then "True" else "False"
  | JVal.null => "None"

/-- The parse section of `_evaluate_job_relevance` (LLM_filtering.py lines
106-121): every failure is caught and becomes a `(0, error text)` result. -/
def evaluate_parse (json_loads : List Char → Except String JObj)
    (response_text : List Char) : ℚ × String :=
  match extract_json_from_text response_text with
  | none => (0, "Error parsing response: No valid JSON found in response")
  | some json_str =>
    match json_loads json_str with
    | Except.error e => (0, "Error parsing response: " ++ e)
    | Except.ok result =>
      let overall_score := (jGet result "overall_score").getD (JVal.num 0)
      let reasoning := (jGet result "reasoning").getD (JVal.str "No reasoning provided")
      match pyFloatOfJVal overall_score with
      | some q => (q, jvalAsReasoningStr reasoning)
      | none => (0, "Error parsing response: float conversion failed")

/-! ## Properties of the stable descending insertion sort -/

/-- The descending order used by the ranking sort. -/
def scoreGE (a b : Job) : Prop := jScore b ≤ jScore a

theorem insertDesc_perm (x : Job) (l : List Job) : (insertDesc x l).Perm (x :: l) := by
  induction l with
  | nil => exact List.Perm.refl _
  | cons y ys ih =>
    unfold insertDesc
    by_cases h : jScore x ≤ jScore y
    · simp only [if_pos h]
      exact (ih.cons y).trans (List.Perm.swap x y ys)
    · simp only [if_neg h]
      exact List.Perm.refl _

theorem mem_insertDesc {z x : Job} {l : List Job} :
    z ∈ insertDesc x l ↔ z = x ∨ z ∈ l := by
  rw [(insertDesc_perm x l).mem_iff, List.mem_cons]

theorem pairwise_insertDesc {x : Job} {l : List Job}
    (h : l.Pairwise scoreGE) : (insertDesc x l).Pairwise scoreGE := by
  induction l with
  | nil => simp [insertDesc, List.pairwise_cons]
  | cons y ys ih =>
    rw [List.pairwise_cons] at h
    obtain ⟨hy, hys⟩ := h
    unfold insertDesc
    by_cases hxy : jScore x ≤ jScore y
    · simp only [if_pos hxy]
      rw [List.pairwise_cons]
      refine ⟨fun z hz => ?_, ih hys⟩
      rcases mem_insertDesc.mp hz with rfl | hz
      · exact hxy
      · exact hy z hz
    · simp only [if_neg hxy]
      rw [List.pairwise_cons]
      refine ⟨fun z hz => ?_, List.pairwise_cons.mpr ⟨hy, hys⟩⟩
      rcases List.mem_cons.mp hz with rfl | hz
      · exact le_of_lt (lt_of_not_le hxy)
      · exact le_trans (hy z hz) (le_of_lt (lt_of_not_le hxy))

theorem filter_insertDesc (c : ℚ) {x : Job} {l : List Job}
    (h : l.Pairwise scoreGE) :
    (insertDesc x l).filter (fun z => decide (jScore z = c)) =
      l.filter (fun z => decide (jScore z = c)) ++
        (if jScore x = c then [x] else []) := by
  induction l with
  | nil => simp [insertDesc, List.filter_cons]
  | cons y ys ih =>
    rw [List.pairwise_cons] at h
    obtain ⟨hy, hys⟩ := h
    unfold insertDesc
    by_cases hxy : jScore x ≤ jScore y
    · simp only [if_pos hxy, List.filter_cons, ih hys]
      by_cases hyc : jScore y = c <;> simp [hyc, List.append_assoc]
    · simp only [if_neg hxy]
      by_cases hxc : jScore x = c
      · have hlt : jScore y < jScore x := lt_of_not_le hxy
        have hnil : (y :: ys).filter (fun z => decide (jScore z = c)) = [] := by
          rw [List.filter_eq_nil_iff]
          intro z hz
          simp only [decide_eq_true_eq]
          rcases List.mem_cons.mp hz with rfl | hz
          · exact ne_of_lt (hxc ▸ hlt)
          · exact ne_of_lt (lt_of_le_of_lt (hy z hz) (hxc ▸ hlt))
        rw [List.filter_cons, hnil]
        simp [hxc]
      · rw [List.filter_cons]
        simp [hxc]

theorem foldl_insertDesc_pairwise :
    ∀ (l acc : List Job), acc.Pairwise scoreGE →
      (l.foldl (fun a x => insertDesc x a) acc).Pairwise scoreGE := by
  intro l
  induction l with
  | nil => intro acc h; exact h
  | cons x xs ih =>
    intro acc h
    exact ih (insertDesc x acc) (pairwise_insertDesc h)

theorem foldl_insertDesc_perm :
    ∀ (l acc : List Job), (l.foldl (fun a x => insertDesc x a) acc).Perm (acc ++ l) := by
  intro l
  induction l with
  | nil => intro acc; simp
  | cons x xs ih =>
    intro acc
    simp only [List.foldl_cons]
    exact ((ih (insertDesc x acc)).trans
      ((insertDesc_perm x acc).append_right xs)).trans List.perm_middle.symm

theorem foldl_insertDesc_filter (c : ℚ) :
    ∀ (l acc : List Job), acc.Pairwise scoreGE →
      (l.foldl (fun a x => insertDesc x a) acc).filter
          (fun z => decide (jScore z = c)) =
        acc.filter (fun z => decide (jScore z = c)) ++
          l.filter (fun z => decide (jScore z = c)) := by
  intro l
  induction l with
  | nil => intro acc _; simp
  | cons x xs ih =>
    intro acc h
    have step := ih (insertDesc x acc) (pairwise_insertDesc h)
    simp only [List.foldl_cons] at step ⊢
    rw [step, filter_insertDesc c h, List.filter_cons, List.append_assoc]
    by_cases hxc : jScore x = c <;> simp [hxc]

theorem sortByScoreDesc_pairwise (l : List Job) :
    (sortByScoreDesc l).Pairwise scoreGE :=
  foldl_insertDesc_pairwise l [] (List.Pairwise.nil)

theorem sortByScoreDesc_perm (l : List Job) : (sortByScoreDesc l).Perm l := by
  have h := foldl_insertDesc_perm l []
  simpa [sortByScoreDesc] using h

/-- Stability: every equal-score class of the sorted list is the class of
the input list in input order. -/
theorem sortByScoreDesc_stable (l : List Job) (c : ℚ) :
    (sortByScoreDesc l).filter (fun z => decide (jScore z = c)) =
      l.filter (fun z => decide (jScore z = c)) := by
  have h := foldl_insertDesc_filter c l [] (List.Pairwise.nil)
  simpa [sortByScoreDesc] using h

/-! ## Claim theorems -/

/-- Helper to build concrete jobs for witnesses. -/
def mkJob (t c desc : String) : Job :=
  { job_title := t, company := c, location := "Lahore", jobNature := "onsite",
    description := desc, experience := "2 years", salary := "Not specified",
    apply_link := "#" }

/-- C1: for every job pool, evaluation outcome, `min_score` and
`max_results`, the list returned by `filter_relevant_jobs` is the
`max_results`-prefix of the threshold-filtered stable descending sort of the
scored pool: it is sorted descending by `relevance_score`, the sort keeps
equal-score jobs in original pool order (each equal-score class of the
sorted list equals that class of the scored pool, which `scoreOne` maps
one-to-one from the input pool), no returned job scores strictly below
`min_score`, the length is at most `max_results`, and the result is a
prefix of the sorted, filtered list. -/
theorem c1_filter_relevant_jobs_ranked (eval : Job → Except String (ℚ × String))
    (jobs : List Job) (min_score : ℚ) (max_jobs : Nat) :
    filter_relevant_jobs eval jobs min_score max_jobs =
      ((sortByScoreDesc (jobs.map (scoreOne eval))).filter
        (fun j => decide (min_score ≤ jScore j))).take max_jobs ∧
    (filter_relevant_jobs eval jobs min_score max_jobs).Pairwise scoreGE ∧
    (∀ c : ℚ, (sortByScoreDesc (jobs.map (scoreOne eval))).filter
        (fun z => decide (jScore z = c)) =
      (jobs.map (scoreOne eval)).filter (fun z => decide (jScore z = c))) ∧
    (sortByScoreDesc (jobs.map (scoreOne eval))).Perm (jobs.map (scoreOne eval)) ∧
    (∀ j ∈ filter_relevant_jobs eval jobs min_score max_jobs,
      ¬ jScore j < min_score) ∧
    (filter_relevant_jobs eval jobs min_score max_jobs).length ≤ max_jobs ∧
    filter_relevant_jobs eval jobs min_score max_jobs <+:
      (sortByScoreDesc (jobs.map (scoreOne eval))).filter
        (fun j => decide (min_score ≤ jScore j)) := by
  have heq : filter_relevant_jobs eval jobs min_score max_jobs =
      ((sortByScoreDesc (jobs.map (scoreOne eval))).filter
        (fun j => decide (min_score ≤ jScore j))).take max_jobs := by
    unfold filter_relevant_jobs
    by_cases h : jobs.isEmpty
    · have hnil : jobs = [] := List.isEmpty_iff.mp h
      subst hnil
      simp [sortByScoreDesc]
    · simp [h]
  refine ⟨heq, ?_, fun c => sortByScoreDesc_stable _ c, sortByScoreDesc_perm _,
    ?_, ?_, ?_⟩
  · rw [heq]
    exact List.Pairwise.sublist
      ((List.take_sublist _ _).trans (List.filter_sublist _))
      (sortByScoreDesc_pairwise _)
  · intro j hj
    rw [heq] at hj
    have hj2 := (List.take_sublist _ _).mem hj
    have := List.of_mem_filter hj2
    simp only [decide_eq_true_eq] at this
    exact not_lt.mpr this
  · rw [heq, List.length_take]
    exact min_le_left _ _
  · rw [heq]
    exact ⟨_, List.take_append_drop _ _⟩

def c1jobA : Job := mkJob "A" "Acme" "first"

def c1jobB : Job := mkJob "B" "Bling" "second"

def c1eval : Job → Except String (ℚ × String) := fun j =>
  if j.job_title = "A" then Except.ok (1, "strong match")
  else Except.ok (0, "partial match")

def c1scoredA : Job :=
  { c1jobA with relevance_score := some 1, relevance_reasoning := some "strong match" }

theorem c1_witness : ¬ jScore c1scoredA < 1 :=
  (c1_filter_relevant_jobs_ranked c1eval [c1jobA, c1jobB] 1 1).2.2.2.2.1 _
    (by decide)

/-- Unconditional unfolding of `filter_relevant_jobs` into its
score, sort, filter and truncate stages (the empty-pool early return
produces the same value). -/
theorem filter_relevant_jobs_unfold (eval : Job → Except String (ℚ × String))
    (jobs : List Job) (min_score : ℚ) (max_jobs : Nat) :
    filter_relevant_jobs eval jobs min_score max_jobs =
      ((sortByScoreDesc (jobs.map (scoreOne eval))).filter
        (fun j => decide (min_score ≤ jScore j))).take max_jobs := by
  unfold filter_relevant_jobs
  by_cases h : jobs.isEmpty
  · have hnil : jobs = [] := List.isEmpty_iff.mp h
    subst hnil
    simp [sortByScoreDesc]
  · simp [h]

/-- Removing the annotations a scorer attaches. -/
def stripAnnot (j : Job) : Job :=
  { j with relevance_score := none, relevance_reasoning := none }

theorem stripAnnot_scoreOne (eval : Job → Except String (ℚ × String)) (j : Job) :
    stripAnnot (scoreOne eval j) = stripAnnot j := by
  unfold scoreOne stripAnnot
  cases h : eval j with
  | ok p => cases p; rfl
  | error e => rfl

/-- C4: the scoring pass of `filter_relevant_jobs` keeps the pool intact:
the scored list is the input list job for job (same length, same order,
all non-annotation fields unchanged), a per-job evaluation failure only
annotates that job with score 0.0 and an error reasoning string, a per-job
success annotates the reported score and reasoning, and the function then
sorts, filters and truncates exactly that scored list. -/
theorem c4_scoring_never_drops_jobs (eval : Job → Except String (ℚ × String))
    (jobs : List Job) (min_score : ℚ) (max_jobs : Nat) :
    ((jobs.map (scoreOne eval)).map stripAnnot = jobs.map stripAnnot) ∧
    (jobs.map (scoreOne eval)).length = jobs.length ∧
    (∀ j e, eval j = Except.error e → scoreOne eval j =
      { j with relevance_score := some 0,
               relevance_reasoning := some ("Error during evaluation: " ++ e) }) ∧
    (∀ j s r, eval j = Except.ok (s, r) → scoreOne eval j =
      { j with relevance_score := some s, relevance_reasoning := some r }) ∧
    filter_relevant_jobs eval jobs min_score max_jobs =
      ((sortByScoreDesc (jobs.map (scoreOne eval))).filter
        (fun j => decide (min_score ≤ jScore j))).take max_jobs := by
  refine ⟨?_, by simp, ?_, ?_, filter_relevant_jobs_unfold eval jobs min_score max_jobs⟩
  · induction jobs with
    | nil => rfl
    | cons j js ih => simp only [List.map_cons, stripAnnot_scoreOne, ih]
  · intro j e h
    unfold scoreOne
    rw [h]
  · intro j s r h
    unfold scoreOne
    rw [h]

def c4evalErr : Job → Except String (ℚ × String) := fun _ =>
  Except.error "API rate limit exceeded"

def c4scoredErr : Job :=
  { c1jobA with relevance_score := some 0,
                relevance_reasoning := some "Error during evaluation: API rate limit exceeded" }

theorem c4_witness : scoreOne c4evalErr c1jobA = c4scoredErr :=
  (c4_scoring_never_drops_jobs c4evalErr [c1jobA] (3/10) 20).2.2.1 c1jobA
    "API rate limit exceeded" rfl

/-! ### C5: keyword fallback score formula and the Backend Engineer scenario -/

def c5crit : SearchCriteria :=
  { position := "", experience := "", salary := "", jobNature := "",
    location := "", skills := "python, django" }

def c5job : Job :=
  { job_title := "Backend Engineer", company := "TechCorp", location := "Karachi",
    jobNature := "onsite", description := "We build scalable web services in Java",
    experience := "2 years", salary := "Not specified", apply_link := "#" }

def c5scored : Job :=
  { c5job with relevance_score := some 0,
               relevance_reasoning := some "Keyword matching found 0 out of 2 keywords" }

/-- C5: the keyword fallback computes, per job, the pre-jitter score
min(1, matched / keyword count) over the keyword list built from the
comma-split, trimmed, lower-cased, non-empty skills tokens, the
whitespace-split position tokens, and work mode and location when set and
not the sentinel; an empty keyword list scores every job 0.5; the stored
score adds the jitter re-clamped to 1 and the reasoning string reports the
match count and keyword count.  Concretely, one job titled Backend Engineer
with skills "python, django" and a haystack containing neither keyword
scores 0.0 and reports 0 matched of 2 keywords. -/
theorem c5_keyword_fallback_formula :
    (∀ (kws : List (List Char)) (j : Job), kws ≠ [] →
      kwBaseScore kws j = min 1 ((kwMatchCount kws j : ℚ) / (kws.length : ℚ))) ∧
    (∀ j : Job, kwBaseScore [] j = 1/2) ∧
    (∀ (kws : List (List Char)) (jit : ℚ) (j : Job),
      (kwScoreOne kws jit j).relevance_score =
          some (min 1 (kwBaseScore kws j + jit)) ∧
      (kwScoreOne kws jit j).relevance_reasoning =
          some ("Keyword matching found " ++ toString (kwMatchCount kws j) ++
            " out of " ++ toString kws.length ++ " keywords")) ∧
    buildKeywords c5crit = ["python".data, "django".data] ∧
    kwMatchCount (buildKeywords c5crit) c5job = 0 ∧
    keyword_score_jobs (fun _ => 0) [c5job] c5crit 20 = [c5scored] := by
  have hkw : buildKeywords c5crit = ["python".data, "django".data] := by decide
  have hm : kwMatchCount (buildKeywords c5crit) c5job = 0 := by decide
  refine ⟨?_, ?_, ?_, hkw, hm, ?_⟩
  · intro kws j h
    unfold kwBaseScore
    rw [if_pos h]
  · intro j
    unfold kwBaseScore
    simp
  · intro kws jit j
    exact ⟨rfl, rfl⟩
  · have hne : buildKeywords c5crit ≠ [] := by decide
    have hbase : kwBaseScore (buildKeywords c5crit) c5job = 0 := by
      unfold kwBaseScore
      rw [if_pos hne, hm, hkw]
      norm_num
    have hscore : kwScoreOne (buildKeywords c5crit) 0 c5job = c5scored := by
      unfold kwScoreOne
      rw [hbase, hm, hkw]
      norm_num
      rfl
    calc keyword_score_jobs (fun _ => 0) [c5job] c5crit 20
        = [kwScoreOne (buildKeywords c5crit) 0 c5job] := rfl
      _ = [c5scored] := by rw [hscore]

theorem c5_witness :
    kwBaseScore ["python".data, "django".data] c5job =
      min 1 ((kwMatchCount ["python".data, "django".data] c5job : ℚ) / 2) :=
  (c5_keyword_fallback_formula.1 ["python".data, "django".data] c5job (by decide))

/-! ### C9: monotonicity of the fallback score in the match count

The code counts matches by scanning the keyword list, so duplicate tokens
count with multiplicity; the number of distinct matched keywords (the dedup
of the list) is the quantity the claim names, and the two disagree when the
criteria contain repeated tokens. -/

/-- The number of distinct keywords found in the haystack of `j`. -/
def kwDistinctMatched (kws : List (List Char)) (j : Job) : Nat :=
  (kws.dedup.filter (fun k => isSubOf k (jobHaystack j))).length

def c9crit : SearchCriteria :=
  { position := "", experience := "", salary := "", jobNature := "",
    location := "", skills := "python, python, python, java, django" }

def c9jobA : Job :=
  { job_title := "Dev", company := "Acme", location := "Lahore",
    jobNature := "onsite", description := "a python shop",
    experience := "2 years", salary := "Not specified", apply_link := "#" }

def c9jobB : Job :=
  { job_title := "Dev", company := "Acme", location := "Lahore",
    jobNature := "onsite", description := "a go shop using java and django",
    experience := "2 years", salary := "Not specified", apply_link := "#" }

/-- C9 counterexample: with skills "python, python, python, java, django",
job B matches two distinct keywords while job A matches one, yet the
pre-jitter score of B is strictly lower (2/5 against 3/5): the code scores
by keyword-list entries with multiplicity, not by distinct keywords. -/
theorem c9_counterexample :
    kwDistinctMatched (buildKeywords c9crit) c9jobA = 1 ∧
    kwDistinctMatched (buildKeywords c9crit) c9jobB = 2 ∧
    kwBaseScore (buildKeywords c9crit) c9jobB <
      kwBaseScore (buildKeywords c9crit) c9jobA := by
  have hne : buildKeywords c9crit ≠ [] := by decide
  have hlen : (buildKeywords c9crit).length = 5 := by decide
  have hA : kwMatchCount (buildKeywords c9crit) c9jobA = 3 := by decide
  have hB : kwMatchCount (buildKeywords c9crit) c9jobB = 2 := by decide
  refine ⟨by decide, by decide, ?_⟩
  unfold kwBaseScore
  rw [if_pos hne, if_pos hne, hA, hB, hlen]
  norm_num

/-- C9 amended: for fixed criteria with a non-empty keyword list, the
pre-jitter score is monotone in the number of matched keyword-list entries
counted with multiplicity. -/
theorem c9_monotone_in_match_count (c : SearchCriteria) (j1 j2 : Job)
    (h : buildKeywords c ≠ [])
    (hm : kwMatchCount (buildKeywords c) j2 ≤ kwMatchCount (buildKeywords c) j1) :
    kwBaseScore (buildKeywords c) j2 ≤ kwBaseScore (buildKeywords c) j1 := by
  unfold kwBaseScore
  rw [if_pos h, if_pos h]
  have hc : (0 : ℚ) < ((buildKeywords c).length : ℚ) := by
    have : 0 < (buildKeywords c).length := List.length_pos.mpr h
    exact_mod_cast this
  exact min_le_min le_rfl ((div_le_div_iff_of_pos_right hc).mpr (by exact_mod_cast hm))

theorem c9_witness :
    kwBaseScore (buildKeywords c9crit) c9jobB ≤ kwBaseScore (buildKeywords c9crit) c9jobA :=
  c9_monotone_in_match_count c9crit c9jobA c9jobB (by decide) (by decide)

/-! ### C6: attached scores and the unit interval -/

theorem kwBaseScore_nonneg (kws : List (List Char)) (j : Job) :
    0 ≤ kwBaseScore kws j := by
  unfold kwBaseScore
  split
  · exact le_min zero_le_one (div_nonneg (Nat.cast_nonneg _) (Nat.cast_nonneg _))
  · norm_num

theorem mem_kwScoreList {kws : List (List Char)} {jit : Nat → ℚ} :
    ∀ {i : Nat} {jobs : List Job} {j : Job}, j ∈ kwScoreList kws jit i jobs →
      ∃ k jb, jb ∈ jobs ∧ j = kwScoreOne kws (jit k) jb := by
  intro i jobs
  induction jobs generalizing i with
  | nil => intro j h; simp [kwScoreList] at h
  | cons x xs ih =>
    intro j h
    simp only [kwScoreList] at h
    rcases List.mem_cons.mp h with rfl | h2
    · exact ⟨i, x, List.mem_cons_self x xs, rfl⟩
    · obtain ⟨k, jb, hjb, hj⟩ := ih h2
      exact ⟨k, jb, List.mem_cons_of_mem x hjb, hj⟩

/-- C6 amended: keyword-fallback scores (for non-negative jitter draws, as
`random.uniform(0, 0.05)` produces) and the error-path score 0.0 always lie
in [0,1], and a semantic success score is stored exactly as the evaluation
reported it — unclamped — so every stored score lies in [0,1] exactly when
the per-job evaluations only report scores in [0,1]. -/
theorem c6_scores_in_unit_interval :
    (∀ (jit : Nat → ℚ) (jobs : List Job) (c : SearchCriteria) (maxj : Nat),
      (∀ i, 0 ≤ jit i) →
      ∀ j ∈ keyword_score_jobs jit jobs c maxj, 0 ≤ jScore j ∧ jScore j ≤ 1) ∧
    (∀ (eval : Job → Except String (ℚ × String)) (jobs : List Job) (ms : ℚ)
      (maxj : Nat),
      (∀ jb s r, eval jb = Except.ok (s, r) → 0 ≤ s ∧ s ≤ 1) →
      ∀ j ∈ filter_relevant_jobs eval jobs ms maxj,
        0 ≤ jScore j ∧ jScore j ≤ 1) := by
  constructor
  · intro jit jobs c maxj hjit j hj
    simp only [keyword_score_jobs] at hj
    have h1 : j ∈ sortByScoreDesc (kwScoreList (buildKeywords c) jit 0 jobs) :=
      (List.take_sublist _ _).subset hj
    have h2 : j ∈ kwScoreList (buildKeywords c) jit 0 jobs :=
      (sortByScoreDesc_perm _).mem_iff.mp h1
    obtain ⟨k, jb, _, rfl⟩ := mem_kwScoreList h2
    have hsc : jScore (kwScoreOne (buildKeywords c) (jit k) jb) =
        min 1 (kwBaseScore (buildKeywords c) jb + jit k) := rfl
    rw [hsc]
    exact ⟨le_min zero_le_one (add_nonneg (kwBaseScore_nonneg _ _) (hjit k)),
      min_le_left _ _⟩
  · intro eval jobs ms maxj hb j hj
    rw [filter_relevant_jobs_unfold] at hj
    have h1 := (List.take_sublist _ _).subset hj
    have h2 := (List.filter_sublist _).subset h1
    have h3 := (sortByScoreDesc_perm _).mem_iff.mp h2
    obtain ⟨jb, _, rfl⟩ := List.mem_map.mp h3
    unfold scoreOne
    cases h : eval jb with
    | ok p =>
      obtain ⟨s, r⟩ := p
      have hs := hb jb s r h
      simpa [jScore] using hs
    | error e =>
      refine ⟨?_, ?_⟩ <;> simp [jScore]

def c6evalW : Job → Except String (ℚ × String) := fun _ => Except.ok (1, "ok")

def c6wscored : Job :=
  { c1jobA with relevance_score := some 1, relevance_reasoning := some "ok" }

theorem c6_witness : 0 ≤ jScore c6wscored ∧ jScore c6wscored ≤ 1 :=
  c6_scores_in_unit_interval.2 c6evalW [c1jobA] 1 20
    (by intro jb s r h
        simp only [c6evalW, Except.ok.injEq, Prod.mk.injEq] at h
        obtain ⟨hs, _⟩ := h
        subst hs
        norm_num)
    c6wscored (by decide)

/-- C6 counterexample: the semantic scorer performs no clamping: a service
response reporting overall_score 2.0 is parsed, stored, and returned with
relevance_score 2, which is outside [0,1]. -/
def c6text : List Char := "\x7b\"overall_score\": 2.0\x7d".data

def c6loads : List Char → Except String JObj := fun s =>
  if s = c6text then Except.ok [("overall_score", JVal.num 2)]
  else Except.error "invalid JSON"

def c6eval : Job → Except String (ℚ × String) := fun _ =>
  Except.ok (evaluate_parse c6loads c6text)

def c6scored : Job :=
  { c1jobA with relevance_score := some 2,
                relevance_reasoning := some "No reasoning provided" }

theorem c6_counterexample :
    evaluate_parse c6loads c6text = (2, "No reasoning provided") ∧
    filter_relevant_jobs c6eval [c1jobA] (3/10) 20 = [c6scored] ∧
    ¬ jScore c6scored ≤ 1 := by
  have hev : evaluate_parse c6loads c6text = (2, "No reasoning provided") := by decide
  refine ⟨hev, ?_, by norm_num [jScore, c6scored]⟩
  rw [filter_relevant_jobs_unfold]
  have hmap : [c1jobA].map (scoreOne c6eval) = [c6scored] := by decide
  rw [hmap]
  have hsort : sortByScoreDesc [c6scored] = [c6scored] := rfl
  rw [hsort]
  have hcond : decide ((3 : ℚ)/10 ≤ jScore c6scored) = true := by
    rw [decide_eq_true_eq]
    norm_num [jScore, c6scored]
  simp [List.filter_cons, hcond]

/-! ### C8: supplementary provider budgeting -/

/-- C8: the Indeed provider is consulted exactly when a scraper is
configured and strictly fewer than 8 jobs were gathered from LinkedIn and
SerpApi, and it is then asked for `INDEED_MAX_JOBS = 3` jobs; in particular
it is invoked at 5 gathered jobs and not at 9. -/
theorem c8_supplementary_budgeting :
    (∀ (h : Bool) (n : Nat), indeedInvoked h n = true ↔ h = true ∧ n < 8) ∧
    INDEED_MAX_JOBS = 3 ∧
    (∀ (li serp : List Job) (fetch : Nat → List Job),
      indeedInvoked true (li ++ serp).length = true →
      gatherAllJobs li serp true fetch = (li ++ serp) ++ fetch 3) ∧
    (∀ (li serp : List Job) (fetch : Nat → List Job),
      8 ≤ (li ++ serp).length → gatherAllJobs li serp true fetch = li ++ serp) ∧
    (∀ (li serp : List Job) (fetch : Nat → List Job),
      gatherAllJobs li serp false fetch = li ++ serp) ∧
    indeedInvoked true 5 = true ∧ indeedInvoked true 9 = false := by
  refine ⟨?_, rfl, ?_, ?_, ?_, by decide, by decide⟩
  · intro h n
    simp [indeedInvoked]
  · intro li serp fetch h
    simp only [gatherAllJobs, h, if_true]
    rfl
  · intro li serp fetch h
    have hfalse : indeedInvoked true (li ++ serp).length = false := by
      simp only [indeedInvoked, Bool.true_and, decide_eq_false_iff_not]
      omega
    simp only [gatherAllJobs, hfalse]
    simp only [Bool.false_eq_true, if_false]
  · intro li serp fetch
    simp [gatherAllJobs, indeedInvoked]

def c8fetch : Nat → List Job := fun _ => [c1jobB]

def c8five : List Job := [c1jobA, c1jobA, c1jobA, c1jobA, c1jobA]

def c8nine : List Job :=
  [c1jobA, c1jobA, c1jobA, c1jobA, c1jobA, c1jobA, c1jobA, c1jobA, c1jobA]

theorem c8_witness :
    gatherAllJobs c8five [] true c8fetch = (c8five ++ []) ++ c8fetch 3 ∧
    gatherAllJobs c8nine [] true c8fetch = c8nine ++ [] := by
  constructor
  · exact c8_supplementary_budgeting.2.2.1 c8five [] c8fetch (by decide)
  · exact c8_supplementary_budgeting.2.2.2.1 c8nine [] c8fetch (by decide)

/-! ### C2: total semantic failure and the keyword fallback

`filter_relevant_jobs` absorbs every per-job exception, so when the
external call fails for every job it returns normally with all scores 0.0;
the 0.3 threshold then removes every job and the endpoint answers with an
empty list.  The except-branch of `search_jobs` that calls
`keyword_score_jobs` is never reached by per-call scoring failures, and
`keyword_score_jobs` itself applies no threshold. -/

theorem kwScoreList_length (kws : List (List Char)) (jit : Nat → ℚ) :
    ∀ (i : Nat) (jobs : List Job), (kwScoreList kws jit i jobs).length = jobs.length := by
  intro i jobs
  induction jobs generalizing i with
  | nil => rfl
  | cons x xs ih => simp [kwScoreList, ih]

def c2crit : SearchCriteria :=
  { position := "Backend Engineer", experience := "2 years", salary := "",
    jobNature := "onsite", location := "Lahore", skills := "python, django" }

def c2evalDown : Job → Except String (ℚ × String) := fun _ =>
  Except.error "503 Service Unavailable"

def c2scoredA : Job :=
  { c1jobA with relevance_score := some 0,
                relevance_reasoning := some "Error during evaluation: 503 Service Unavailable" }

def c2scoredB : Job :=
  { c1jobB with relevance_score := some 0,
                relevance_reasoning := some "Error during evaluation: 503 Service Unavailable" }

def c2jobC : Job :=
  { job_title := "Chef", company := "Resto", location := "Paris",
    jobNature := "Not specified", description := "cooking",
    experience := "5 years", salary := "Not specified", apply_link := "#" }

def c2scoredC : Job :=
  { c2jobC with relevance_score := some 0,
                relevance_reasoning := some "Keyword matching found 0 out of 6 keywords" }

/-- C2 failing input: a two-job pool whose every per-job evaluation raises.
The endpoint model returns the empty list, while the keyword fallback of
the claim would return both jobs of the untrimmed pool — and that fallback
applies no minimum-score threshold (a job scoring 0 is kept). -/
theorem c2_total_llm_failure_yields_empty :
    search_jobs_core c2evalDown [c1jobA, c1jobB] [] false (fun _ => []) = [] ∧
    (keyword_score_jobs (fun _ => 0) [c1jobA, c1jobB] c2crit 20).length = 2 ∧
    keyword_score_jobs (fun _ => 0) [c2jobC] c2crit 20 = [c2scoredC] ∧
    ¬ ((3 : ℚ)/10 ≤ jScore c2scoredC) := by
  refine ⟨?_, ?_, ?_, by norm_num [jScore, c2scoredC]⟩
  · have hg : gatherAllJobs [c1jobA, c1jobB] [] false (fun _ => []) =
        [c1jobA, c1jobB] := by decide
    simp only [search_jobs_core, hg]
    have h15 : ¬ (15 < ([c1jobA, c1jobB] : List Job).length) := by decide
    simp only [List.isEmpty_cons, if_false, h15, if_neg h15, Bool.false_eq_true]
    rw [filter_relevant_jobs_unfold]
    have hmap : [c1jobA, c1jobB].map (scoreOne c2evalDown) =
        [c2scoredA, c2scoredB] := by decide
    rw [hmap]
    have hsort : sortByScoreDesc [c2scoredA, c2scoredB] = [c2scoredA, c2scoredB] := by
      decide
    rw [hsort]
    have hfilter : List.filter (fun j => decide ((3 : ℚ)/10 ≤ jScore j))
        [c2scoredA, c2scoredB] = [] := by
      rw [List.filter_eq_nil_iff]
      intro a ha
      simp only [decide_eq_true_eq]
      rcases List.mem_cons.mp ha with rfl | ha2
      · norm_num [jScore, c2scoredA]
      · rcases List.mem_cons.mp ha2 with rfl | h3
        · norm_num [jScore, c2scoredB]
        · simp at h3
    rw [hfilter]
    rfl
  · simp only [keyword_score_jobs, List.length_take,
      (sortByScoreDesc_perm _).length_eq, kwScoreList_length]
    rfl
  · have hne : buildKeywords c2crit ≠ [] := by decide
    have hm : kwMatchCount (buildKeywords c2crit) c2jobC = 0 := by decide
    have hkwlen : (buildKeywords c2crit).length = 6 := by decide
    have hbase : kwBaseScore (buildKeywords c2crit) c2jobC = 0 := by
      unfold kwBaseScore
      rw [if_pos hne, hm, hkwlen]
      norm_num
    have hscore : kwScoreOne (buildKeywords c2crit) 0 c2jobC = c2scoredC := by
      unfold kwScoreOne
      rw [hbase, hm, hkwlen]
      norm_num
      rfl
    calc keyword_score_jobs (fun _ => 0) [c2jobC] c2crit 20
        = [kwScoreOne (buildKeywords c2crit) 0 c2jobC] := rfl
      _ = [c2scoredC] := by rw [hscore]

/-! ### C3: work-mode inference precedence -/

/-- C3 amended: the ordered precedence hybrid > remote > onsite > "Not
specified" (with negated remote suppressed) holds for the text path of the
Google Jobs normalizer (when the work-from-home flag is not set); the
LinkedIn normalizer does not follow it (see the counterexample): it checks
remote first and defaults to "hybrid". -/
theorem c3_serpapi_work_mode_precedence (wfh : Option Bool) (text : String) :
    (wfh ≠ some true →
      hybrid_patterns.any (fun p => reSearch p (strToLowerT text.data)) = true →
      serpapi_extract_job_nature wfh text = "hybrid") ∧
    (wfh ≠ some true →
      reSearch negationRe (strToLowerT text.data) = true →
      serpapi_extract_job_nature wfh text ≠ "remote") ∧
    (wfh ≠ some true →
      hybrid_patterns.any (fun p => reSearch p (strToLowerT text.data)) = false →
      remote_patterns.any (fun p => reSearch p (strToLowerT text.data)) = true →
      reSearch negationRe (strToLowerT text.data) = false →
      serpapi_extract_job_nature wfh text = "remote") ∧
    (wfh ≠ some true →
      hybrid_patterns.any (fun p => reSearch p (strToLowerT text.data)) = false →
      (remote_patterns.any (fun p => reSearch p (strToLowerT text.data)) = false ∨
        reSearch negationRe (strToLowerT text.data) = true) →
      onsite_patterns.any (fun p => reSearch p (strToLowerT text.data)) = true →
      serpapi_extract_job_nature wfh text = "onsite") ∧
    (wfh ≠ some true →
      hybrid_patterns.any (fun p => reSearch p (strToLowerT text.data)) = false →
      (remote_patterns.any (fun p => reSearch p (strToLowerT text.data)) = false ∨
        reSearch negationRe (strToLowerT text.data) = true) →
      onsite_patterns.any (fun p => reSearch p (strToLowerT text.data)) = false →
      serpapi_extract_job_nature wfh text = "Not specified") := by
  refine ⟨?_, ?_, ?_, ?_, ?_⟩
  · intro h hh
    simp [serpapi_extract_job_nature, if_neg h, hh]
  · intro h hn
    simp only [serpapi_extract_job_nature, if_neg h, hn, Bool.not_true,
      Bool.and_false]
    split
    · decide
    · simp only [Bool.false_eq_true, if_false]
      split
      · decide
      · decide
  · intro h hh hr hn
    simp [serpapi_extract_job_nature, if_neg h, hh, hr, hn]
  · intro h hh hro hon
    rcases hro with hr | hn
    · simp [serpapi_extract_job_nature, if_neg h, hh, hr, hon]
    · simp [serpapi_extract_job_nature, if_neg h, hh, hn, hon]
  · intro h hh hro hon
    rcases hro with hr | hn
    · simp [serpapi_extract_job_nature, if_neg h, hh, hr, hon]
    · simp [serpapi_extract_job_nature, if_neg h, hh, hn, hon]

/-- C3 counterexample: the LinkedIn normalizer violates the precedence on
all three scores of the claim: text carrying both a hybrid cue and a remote
cue is classified "remote" (not "hybrid"), text with an explicit negation
phrase is still classified "remote", and text matching no cue is classified
"hybrid" (not "Not specified"). -/
theorem c3_counterexample :
    linkedin_extract_job_nature "Hybrid or remote welcome" = "remote" ∧
    hybrid_patterns.any
      (fun p => reSearch p (strToLowerT "Hybrid or remote welcome".data)) = true ∧
    remote_patterns.any
      (fun p => reSearch p (strToLowerT "Hybrid or remote welcome".data)) = true ∧
    ("remote" : String) ≠ "hybrid" ∧
    linkedin_extract_job_nature "This position is not remote" = "remote" ∧
    linkedin_extract_job_nature "A plain description" = "hybrid" := by
  exact ⟨by decide, by decide, by decide, by decide, by decide, by decide⟩

theorem c3_witness :
    serpapi_extract_job_nature none "Hybrid or remote welcome" = "hybrid" ∧
    serpapi_extract_job_nature none "This position is not remote" ≠ "remote" := by
  constructor
  · exact (c3_serpapi_work_mode_precedence none "Hybrid or remote welcome").1
      (by decide) (by decide)
  · exact (c3_serpapi_work_mode_precedence none "This position is not remote").2.1
      (by decide) (by decide)

/-! ### C7: LinkedIn normalizer field population -/

/-- C7 amended: `extract_job_details` always emits every key; description,
experience and salary fall back to their documented sentinels, jobNature is
always one of remote/onsite/hybrid, and apply_link is the job posting URL;
but the three `_safe_extract` fields (job_title, company, location) are
None exactly when the page element is missing, not a sentinel. -/
theorem c7_linkedin_normalizer_fields (job_id : String) (soup : LinkedInSoup) :
    (soup.experienceMatch = none →
      (extract_job_details job_id soup).experience = "Not specified") ∧
    (soup.salaryFound = none →
      (extract_job_details job_id soup).salary = "Not specified") ∧
    (soup.descriptionElem = none →
      (extract_job_details job_id soup).description = "No description available") ∧
    ((extract_job_details job_id soup).jobNature = "remote" ∨
      (extract_job_details job_id soup).jobNature = "onsite" ∨
      (extract_job_details job_id soup).jobNature = "hybrid") ∧
    (extract_job_details job_id soup).apply_link =
      "https://www.linkedin.com/jobs-guest/jobs/api/jobPosting/" ++ job_id ∧
    ((extract_job_details job_id soup).job_title = none ↔ soup.titleElem = none) ∧
    ((extract_job_details job_id soup).company = none ↔ soup.companyElem = none) ∧
    ((extract_job_details job_id soup).location = none ↔ soup.locationElem = none) := by
  refine ⟨?_, ?_, ?_, ?_, rfl, ?_, ?_, ?_⟩
  · intro h
    simp [extract_job_details, linkedin_extract_experience, h]
  · intro h
    simp [extract_job_details, linkedin_extract_salary, h]
  · intro h
    simp [extract_job_details, linkedin_extract_description, h]
  · simp only [extract_job_details, linkedin_extract_job_nature]
    split
    · exact Or.inl rfl
    · split
      · exact Or.inr (Or.inl rfl)
      · exact Or.inr (Or.inr rfl)
  · simp [extract_job_details, safe_extract]
  · simp [extract_job_details, safe_extract]
  · simp [extract_job_details, safe_extract]

def c7soup : LinkedInSoup :=
  { titleElem := none, companyElem := none, locationElem := none,
    fullText := "page text without cues", experienceMatch := none,
    salaryFound := none, descriptionElem := none }

/-- C7 counterexample: a fetched page whose title, company and location
elements are missing yields a job record with those fields None — absent
values, not the "Not specified" sentinel — so not every field of a
normalizer-emitted Job holds a real value or a documented sentinel. -/
theorem c7_counterexample :
    (extract_job_details "4047328412" c7soup).job_title = none ∧
    (extract_job_details "4047328412" c7soup).company = none ∧
    (extract_job_details "4047328412" c7soup).location = none := by
  exact ⟨rfl, rfl, rfl⟩

theorem c7_witness :
    (extract_job_details "4047328412" c7soup).experience = "Not specified" ∧
    (extract_job_details "4047328412" c7soup).apply_link =
      "https://www.linkedin.com/jobs-guest/jobs/api/jobPosting/" ++ "4047328412" := by
  constructor
  · exact (c7_linkedin_normalizer_fields "4047328412" c7soup).1 rfl
  · exact (c7_linkedin_normalizer_fields "4047328412" c7soup).2.2.2.2.1

/-! ### C10: parsing the semantic scoring response -/

theorem firstIdx_eq_none {c : Char} : ∀ {l : List Char}, c ∉ l → firstIdx c l = none := by
  intro l
  induction l with
  | nil => intro _; rfl
  | cons x xs ih =>
    intro h
    have hx : ¬ (x = c) := fun e => h (e ▸ List.mem_cons_self x xs)
    have hxs : c ∉ xs := fun hm => h (List.mem_cons_of_mem x hm)
    simp [firstIdx, hx, ih hxs]

theorem firstIdx_append_cons {c : Char} (s1 r : List Char) (h : c ∉ s1) :
    firstIdx c (s1 ++ c :: r) = some s1.length := by
  induction s1 with
  | nil => simp [firstIdx]
  | cons x xs ih =>
    have hx : ¬ (x = c) := fun e => h (e ▸ List.mem_cons_self x xs)
    have hxs : c ∉ xs := fun hm => h (List.mem_cons_of_mem x hm)
    simp [firstIdx, hx, ih hxs]

theorem pyFind_eq {l : List Char} {c : Char} {i : Nat}
    (h : firstIdx c l = some i) : pyFind l c = (i : Int) := by
  unfold pyFind
  rw [h]

theorem pyRfind_eq {l : List Char} {c : Char} {i : Nat}
    (h : firstIdx c l.reverse = some i) :
    pyRfind l c = ((l.length - 1 - i : Nat) : Int) := by
  unfold pyRfind
  rw [h]

/-- C10: the parser extracts exactly the substring from the first left
brace through the last right brace of the response; a missing brace is the
handled ValueError branch yielding score 0.0 with an error reasoning; a
failing JSON load is likewise handled; on success the overall score is
returned exactly as the service reported it (coerced, not recomputed) and
an absent overall-score field defaults to 0.0. -/
theorem c10_response_parsing :
    (∀ (s1 s2 s3 : List Char), lbrace ∉ s1 → rbrace ∉ s3 →
      extract_json_from_text (s1 ++ lbrace :: s2 ++ rbrace :: s3) =
        some (lbrace :: s2 ++ [rbrace])) ∧
    (∀ text : List Char, lbrace ∉ text → extract_json_from_text text = none) ∧
    (∀ text : List Char, rbrace ∉ text → extract_json_from_text text = none) ∧
    (∀ (jl : List Char → Except String JObj) (text : List Char),
      extract_json_from_text text = none →
      evaluate_parse jl text =
        (0, "Error parsing response: No valid JSON found in response")) ∧
    (∀ (jl : List Char → Except String JObj) (text js : List Char) (e : String),
      extract_json_from_text text = some js → jl js = Except.error e →
      evaluate_parse jl text = (0, "Error parsing response: " ++ e)) ∧
    (∀ (jl : List Char → Except String JObj) (text js : List Char) (obj : JObj)
      (q : ℚ), extract_json_from_text text = some js → jl js = Except.ok obj →
      jGet obj "overall_score" = some (JVal.num q) →
      (evaluate_parse jl text).1 = q) ∧
    (∀ (jl : List Char → Except String JObj) (text js : List Char) (obj : JObj),
      extract_json_from_text text = some js → jl js = Except.ok obj →
      jGet obj "overall_score" = none →
      (evaluate_parse jl text).1 = 0) := by
  refine ⟨?_, ?_, ?_, ?_, ?_, ?_, ?_⟩
  · intro s1 s2 s3 h1 h3
    have hre : s1 ++ lbrace :: s2 ++ rbrace :: s3 =
        (s1 ++ lbrace :: s2) ++ rbrace :: s3 := by
      simp [List.append_assoc]
    have hfirst : firstIdx lbrace (s1 ++ lbrace :: s2 ++ rbrace :: s3) =
        some s1.length := by
      have h0 := firstIdx_append_cons s1 (s2 ++ rbrace :: s3) h1
      simpa using h0
    have hrev : (s1 ++ lbrace :: s2 ++ rbrace :: s3).reverse =
        s3.reverse ++ rbrace :: (s1 ++ lbrace :: s2).reverse := by
      rw [hre]
      simp [List.reverse_append]
    have hrevfirst : firstIdx rbrace
        ((s1 ++ lbrace :: s2 ++ rbrace :: s3).reverse) = some s3.length := by
      rw [hrev]
      have := firstIdx_append_cons s3.reverse ((s1 ++ lbrace :: s2).reverse)
        (by simpa using h3)
      simpa using this
    have hlen : (s1 ++ lbrace :: s2 ++ rbrace :: s3).length =
        s1.length + s2.length + s3.length + 2 := by
      simp [List.length_append]
      omega
    have hfind : pyFind (s1 ++ lbrace :: s2 ++ rbrace :: s3) lbrace =
        (s1.length : Int) := pyFind_eq hfirst
    have hrfind : pyRfind (s1 ++ lbrace :: s2 ++ rbrace :: s3) rbrace =
        ((s1.length + s2.length + 1 : Nat) : Int) := by
      have h0 := pyRfind_eq hrevfirst
      rw [hlen] at h0
      have harith : s1.length + s2.length + s3.length + 2 - 1 - s3.length =
          s1.length + s2.length + 1 := by omega
      rw [harith] at h0
      exact h0
    have hcond : (0 : Int) ≤ (s1.length : Int) ∧
        (s1.length : Int) < ((s1.length + s2.length + 1 : Nat) : Int) + 1 := by
      constructor
      · exact Int.ofNat_nonneg _
      · push_cast
        omega
    unfold extract_json_from_text
    rw [hfind, hrfind, if_pos hcond]
    have htext : s1 ++ lbrace :: s2 ++ rbrace :: s3 =
        (s1 ++ (lbrace :: s2 ++ [rbrace])) ++ s3 := by
      simp [List.append_assoc]
    have hend : (((s1.length + s2.length + 1 : Nat) : Int) + 1).toNat =
        (s1 ++ (lbrace :: s2 ++ [rbrace])).length := by
      simp [List.length_append]
      omega
    have hstart : ((s1.length : Int)).toNat = s1.length := by simp
    rw [htext, hend, hstart, List.take_left, List.drop_left' rfl]
  · intro text h
    have hf : pyFind text lbrace = -1 := by
      unfold pyFind
      rw [firstIdx_eq_none h]
    unfold extract_json_from_text
    rw [hf, if_neg (by rintro ⟨hc, _⟩; omega)]
  · intro text h
    have hrf : pyRfind text rbrace = -1 := by
      unfold pyRfind
      rw [firstIdx_eq_none (by simpa using h)]
    unfold extract_json_from_text
    rw [hrf, if_neg (by rintro ⟨_, hc⟩; omega)]
  · intro jl text h
    unfold evaluate_parse
    rw [h]
  · intro jl text js e h hj
    unfold evaluate_parse
    simp only [h, hj]
  · intro jl text js obj q h hj hov
    unfold evaluate_parse
    simp [h, hj, hov, pyFloatOfJVal]
  · intro jl text js obj h hj hov
    unfold evaluate_parse
    simp [h, hj, hov, pyFloatOfJVal]

def c10s1 : List Char := "Sure, here is the JSON: ".data

def c10s2 : List Char := "\"overall_score\": 0.7, \"reasoning\": \"ok\"".data

def c10s3 : List Char := " done".data

def c10js : List Char := lbrace :: c10s2 ++ [rbrace]

def c10obj : JObj := [("overall_score", JVal.num (7/10)), ("reasoning", JVal.str "ok")]

def c10loads : List Char → Except String JObj := fun s =>
  if s = c10js then Except.ok c10obj else Except.error "bad"

theorem c10_witness :
    extract_json_from_text (c10s1 ++ lbrace :: c10s2 ++ rbrace :: c10s3) = some c10js ∧
    (evaluate_parse c10loads (c10s1 ++ lbrace :: c10s2 ++ rbrace :: c10s3)).1 = 7/10 := by
  have h1 := c10_response_parsing.1 c10s1 c10s2 c10s3 (by decide) (by decide)
  refine ⟨h1, ?_⟩
  exact c10_response_parsing.2.2.2.2.2.1 c10loads _ c10js c10obj (7/10) h1 rfl rfl
